import Mathlib

/-!
Shallow embedding of `rebuild_table_with_column_reorder.py`: the metadata
normalization (`fetch_ordered_metadata`), the type-string reconstruction
inlined in it, the column-definition renderer (`build_col_def`), the
column planner (`insert_new_columns`), and the SQL synthesis and execution
sequencing of `rebuild_with_inferred_and_inserted_columns`.

Python dictionaries holding column metadata are modelled as structures;
keys read with `dict.get` (which may be absent) are `Option` fields.
`raise ValueError(...)` is modelled with `Except`.
-/

/-- Python `str.lower()` on identifiers, modelled as a per-character
case map over the string's characters (`s.lower()`; the identifiers
compared in the source are ASCII). -/
def strLower (s : String) : String := ⟨s.data.map Char.toLower⟩

/-- Python `str.upper()`, modelled as a per-character case map. -/
def strUpper (s : String) : String := ⟨s.data.map Char.toUpper⟩

/-- One column metadata dict, as built by `fetch_ordered_metadata`
(keys: name, type, is_nullable, is_identity, default). -/
structure Col where
  name : String
  type : String
  is_nullable : Bool
  is_identity : Bool
  default : Option String
deriving Repr, DecidableEq

/-- One new-column spec dict, as consumed by `insert_new_columns`.
`nullable`, `identity` and `default` are read with `dict.get` (with
defaults `True`, `False`, `None`), so they are `Option` fields;
`name`, `type`, `position`, `anchor` are indexed directly. -/
structure NewCol where
  name : String
  type : String
  nullable : Option Bool
  identity : Option Bool
  default : Option String
  position : String
  anchor : String
deriving Repr, DecidableEq

/-- The `ValueError`s `insert_new_columns` can raise: a malformed
position string, or an anchor name not present in the working list. -/
inductive PlanError where
  | invalidPosition : PlanError
  | anchorNotFound : String → PlanError
deriving Repr, DecidableEq

/-- Lines 119-125: the metadata dict built for a new column, in the same
shape as the existing ones (`new_col.get("nullable", True)` etc.). -/
def newMeta (nc : NewCol) : Col :=
  { name := nc.name
    type := nc.type
    is_nullable := nc.nullable.getD true
    is_identity := nc.identity.getD false
    default := nc.default }

/-- Lines 128-131: `next((i for i, c in enumerate(ordered) if
c["name"].lower() == anchor.lower()), None)` — index of the first
column whose name matches `anchor` case-insensitively. -/
def findAnchorIdx : List Col → String → Option Nat
  | [], _ => none
  | c :: rest, anchor =>
    if strLower c.name == strLower anchor then some 0
    else (findAnchorIdx rest anchor).map (fun i => i + 1)

/-- One iteration of the loop body of `insert_new_columns`
(lines 112-137): validate `position`, build the new metadata dict, find
the anchor index, and insert at `idx` (before) or `idx + 1` (after).
`list.insert(i, x)` for `i ≤ len` is `take i ++ [x] ++ drop i`. -/
def insertOneColumn (ordered : List Col) (nc : NewCol) : Except PlanError (List Col) :=
  if nc.position ≠ "before" ∧ nc.position ≠ "after" then
    .error .invalidPosition
  else
    match findAnchorIdx ordered nc.anchor with
    | none => .error (.anchorNotFound nc.anchor)
    | some idx =>
      let insert_idx := if nc.position == "after" then idx + 1 else idx
      .ok (ordered.take insert_idx ++ newMeta nc :: ordered.drop insert_idx)

/-- Lines 91-139: `insert_new_columns(existing_cols, new_columns)` —
starts from a copy of `existing_cols` and processes each new column
sequentially against the current working list.  The first `ValueError`
aborts the call. -/
def insert_new_columns (existing_cols : List Col) : List NewCol → Except PlanError (List Col)
  | [] => .ok existing_cols
  | nc :: rest =>
    match insertOneColumn existing_cols nc with
    | .error e => .error e
    | .ok ordered2 => insert_new_columns ordered2 rest

/-- One raw row of the catalog query of `fetch_ordered_metadata`
(lines 29-47), already ordered by `column_id` by the query itself.
`max_length` is the engine's smallint (may be the sentinel -1);
`default_definition` comes from a LEFT JOIN so may be NULL. -/
structure RawRow where
  column_name : String
  data_type : String
  max_length : Int
  precision : Nat
  scale : Nat
  is_nullable : Bool
  is_identity : Bool
  default_definition : Option String
deriving Repr, DecidableEq

/-- Python `int(length / 2)`: true division then truncation toward zero,
which on the catalog's small integers is truncated (T-) division. -/
def pyIntHalf (n : Int) : Int := Int.tdiv n 2

def charFamilies : List String := ["CHAR", "NCHAR", "VARCHAR", "NVARCHAR", "BINARY", "VARBINARY"]

def unicodeFamilies : List String := ["NCHAR", "NVARCHAR"]

def decimalFamilies : List String := ["DECIMAL", "NUMERIC"]

def temporalFamilies : List String := ["DATETIME2", "TIME", "DATETIMEOFFSET"]

/-- Lines 51-66: the type-string reconstruction inlined in
`fetch_ordered_metadata` (the spec's `TypeFormatter.format`).  The raw
type name is uppercased first, so all family matching is
case-insensitive. -/
def formatType (raw_type : String) (max_length : Int) (precision scale : Nat) : String :=
  let data_type := strUpper raw_type
  if data_type ∈ charFamilies then
    if max_length = -1 then
      data_type ++ "(MAX)"
    else
      let length : Int := if data_type ∈ unicodeFamilies then pyIntHalf max_length else max_length
      data_type ++ "(" ++ toString length ++ ")"
  else if data_type ∈ decimalFamilies then
    data_type ++ "(" ++ toString precision ++ "," ++ toString scale ++ ")"
  else if data_type ∈ temporalFamilies then
    data_type ++ "(" ++ toString scale ++ ")"
  else
    data_type

/-- Lines 68-76: the metadata dict appended for each catalog row. -/
def rowToCol (row : RawRow) : Col :=
  { name := row.column_name
    type := formatType row.data_type row.max_length row.precision row.scale
    is_nullable := row.is_nullable
    is_identity := row.is_identity
    default := row.default_definition }

/-- Lines 25-77: `fetch_ordered_metadata` — one output dict per catalog
row, in the row order the query returned (ordered by `column_id`).
There is no emptiness check: zero rows yield the empty list. -/
def fetch_ordered_metadata (rows : List RawRow) : List Col :=
  rows.map rowToCol

/-- Python truthiness of the value of `col.get("default")`:
`None` and the empty string are falsy, any other string is truthy. -/
def pyTruthyStr : Option String → Bool
  | none => false
  | some s => !s.isEmpty

/-- Lines 80-88: `build_col_def` — renders
`[name] type{identity}{default} {nullable}` where the DEFAULT clause is
guarded by `if col.get("default")`, i.e. Python truthiness. -/
def build_col_def (col : Col) : String :=
  let nullable := if col.is_nullable then "NULL" else "NOT NULL"
  let identity := if col.is_identity then " IDENTITY(1,1)" else ""
  let dflt := if pyTruthyStr col.default then " DEFAULT " ++ col.default.getD "" else ""
  "[" ++ col.name ++ "] " ++ col.type ++ identity ++ dflt ++ " " ++ nullable

/-- Line 188: `{c["name"].lower() for c in existing_cols}` — the set of
lowered existing names, used only via membership. -/
def existingNames (existing_cols : List Col) : List String :=
  existing_cols.map (fun c => strLower c.name)

/-- Lines 190-201: the SELECT-list expression chosen for one planned
column: the bracketed name when the lowered name is among the existing
names, otherwise the first matching new-column spec's default (checked
with `is not None`) aliased to the name, or NULL aliased to the name.
`next(...)` without a fallback raises `StopIteration` when no spec
matches, modelled as `none`. -/
def selectExpr (existing_cols : List Col) (new_columns : List NewCol) (c : Col) : Option String :=
  if strLower c.name ∈ existingNames existing_cols then
    some ("[" ++ c.name ++ "]")
  else
    match new_columns.find? (fun n => strLower n.name == strLower c.name) with
    | none => none
    | some spec =>
      match spec.default with
      | some d => some (d ++ " AS [" ++ c.name ++ "]")
      | none => some ("NULL AS [" ++ c.name ++ "]")

/-- The whole SELECT-list loop of lines 190-201. -/
def buildSelectExprs (existing_cols : List Col) (new_columns : List NewCol)
    (new_ordered_cols : List Col) : Option (List String) :=
  new_ordered_cols.mapM (selectExpr existing_cols new_columns)

/-- Lines 203-216: the statement batch around the INSERT — bracketed by
`SET IDENTITY_INSERT ... ON;` / `... OFF;` exactly when some planned
column is an identity column. -/
def insertBatchParts (full_tmp_table : String) (insert_stmt : String)
    (new_ordered_cols : List Col) : List String :=
  let has_identity := new_ordered_cols.any (fun c => c.is_identity)
  (if has_identity then ["SET IDENTITY_INSERT " ++ full_tmp_table ++ " ON;"] else [])
    ++ [insert_stmt]
    ++ (if has_identity then ["SET IDENTITY_INSERT " ++ full_tmp_table ++ " OFF;"] else [])

/-- A single-quote character, kept out of plain string literals. -/
def sqm : String := "\x27"

/-- Lines 179-183: the CREATE TABLE text. -/
def createSql (full_tmp_table : String) (col_defs : List String) : String :=
  "CREATE TABLE " ++ full_tmp_table ++ " (\n    " ++ String.intercalate ",\n    " col_defs ++ "\n);"

/-- Lines 209-213: the guarded INSERT ... SELECT statement. -/
def insertStmt (full_tmp_table full_table : String)
    (insert_cols select_exprs : List String) : String :=
  "INSERT INTO " ++ full_tmp_table ++ " (" ++ String.intercalate ", " insert_cols ++ ")\n"
    ++ "SELECT " ++ String.intercalate ", " select_exprs ++ "\n"
    ++ "FROM " ++ full_table ++ " WITH (HOLDLOCK TABLOCKX);"

/-- Failures of `rebuild_with_inferred_and_inserted_columns` before any
generated statement is executed: a planner `ValueError`, or the
`StopIteration` of the `next(...)` lookup at line 196. -/
inductive RebuildError where
  | planErr : PlanError → RebuildError
  | stopIteration : RebuildError
deriving Repr, DecidableEq

/-- Lines 142-225: `rebuild_with_inferred_and_inserted_columns`,
abstracted over the Session: the catalog rows the metadata query
returned are an input, and the output's first component is the exact
list of generated SQL strings passed to `cursor.execute`, in execution
order (CREATE, guarded INSERT batch, DROP, sp_rename).  A failure
before line 221 executes nothing. -/
def rebuild (schema table : String) (rows : List RawRow) (new_columns : List NewCol)
    (tmp_suffix : String) : List String × Except RebuildError Unit :=
  let full_table := "[" ++ schema ++ "].[" ++ table ++ "]"
  let tmp_table_name := table ++ tmp_suffix
  let full_tmp_table := "[" ++ schema ++ "].[" ++ tmp_table_name ++ "]"
  let existing_cols := fetch_ordered_metadata rows
  match insert_new_columns existing_cols new_columns with
  | .error e => ([], .error (.planErr e))
  | .ok new_ordered_cols =>
    let col_defs := new_ordered_cols.map build_col_def
    let create_sql := createSql full_tmp_table col_defs
    let insert_cols := new_ordered_cols.map (fun c => "[" ++ c.name ++ "]")
    match buildSelectExprs existing_cols new_columns new_ordered_cols with
    | none => ([], .error .stopIteration)
    | some select_exprs =>
      let insert_sql := String.intercalate "\n"
        (insertBatchParts full_tmp_table
          (insertStmt full_tmp_table full_table insert_cols select_exprs) new_ordered_cols)
      let drop_sql := "DROP TABLE " ++ full_table ++ ";"
      let rename_sql := "EXEC sp_rename N" ++ sqm ++ full_tmp_table ++ sqm ++ ", N" ++ sqm
        ++ table ++ sqm ++ ", " ++ sqm ++ "OBJECT" ++ sqm ++ ";"
      ([create_sql, insert_sql, drop_sql, rename_sql], .ok ())

/-- A heap of Python list objects holding column dicts, addressed by
allocation order; used to make the aliasing behaviour of
`insert_new_columns` (line 110: `ordered = existing_cols.copy()`)
explicit. -/
abbrev ListHeap : Type := List (List Col)

/-- Read the list object at address `a` (out-of-range reads a dummy). -/
def heapGet (h : ListHeap) (a : Nat) : List Col := List.getD h a []

/-- Overwrite the list object at address `a` in place. -/
def heapSet (h : ListHeap) (a : Nat) (v : List Col) : ListHeap := List.set h a v

/-- The loop of lines 112-137 run against the heap: every iteration
mutates only the cell `ordAddr` holding `ordered`; a raise propagates
the heap as it stood at the raise. -/
def insertLoopHeap (ordAddr : Nat) : ListHeap → List NewCol → ListHeap × Except PlanError Nat
  | hh, [] => (hh, .ok ordAddr)
  | hh, nc :: rest =>
    match insertOneColumn (heapGet hh ordAddr) nc with
    | .error e => (hh, .error e)
    | .ok ord2 => insertLoopHeap ordAddr (heapSet hh ordAddr ord2) rest

/-- Heap-level `insert_new_columns`: line 110 allocates a fresh cell
holding a copy of the caller's list (`existing_cols.copy()`), then the
loop mutates that fresh cell only.  Returns the heap after the call
(normal or raising) and, on success, the address of the result list. -/
def insertNewColumnsHeap (h : ListHeap) (existingAddr : Nat) (new_columns : List NewCol) :
    ListHeap × Except PlanError Nat :=
  insertLoopHeap (List.length h) (h ++ [heapGet h existingAddr]) new_columns

/-! Concrete inputs used by examples, witnesses and counterexamples. -/

def colX : Col :=
  { name := "X", type := "INT", is_nullable := true, is_identity := false, default := none }

def colY : Col :=
  { name := "Y", type := "INT", is_nullable := true, is_identity := false, default := none }

def colA : Col :=
  { name := "A", type := "INT", is_nullable := true, is_identity := false, default := none }

def ncAfterX : NewCol :=
  { name := "A", type := "INT", nullable := none, identity := none, default := none,
    position := "after", anchor := "x" }

def ncAfterA : NewCol :=
  { name := "B", type := "INT", nullable := none, identity := none, default := none,
    position := "after", anchor := "a" }

/-- The duplicate insertion of the spec's duplicate test:
`{name:"A", anchor:"A", position:AFTER}`. -/
def ncDupA : NewCol :=
  { name := "A", type := "INT", nullable := none, identity := none, default := none,
    position := "after", anchor := "A" }

def colIdIdentity : Col :=
  { name := "Id", type := "INT", is_nullable := false, is_identity := true, default := none }

def colNameVarchar : Col :=
  { name := "Name", type := "VARCHAR(50)", is_nullable := true, is_identity := false,
    default := none }

/-- The end-to-end scenario's insertion:
`{name:"CreatedAt", type:"DATETIME2(3)", anchor:"Id", position:AFTER,
default:"SYSUTCDATETIME()"}`. -/
def ncCreatedAt : NewCol :=
  { name := "CreatedAt", type := "DATETIME2(3)", nullable := none, identity := none,
    default := some "SYSUTCDATETIME()", position := "after", anchor := "Id" }

/-! Helper lemmas about the planner. -/

/-- A successful single insertion permutes to consing the new metadata
onto the working list. -/
lemma insertOneColumn_perm {w : List Col} {nc : NewCol} {P : List Col}
    (h : insertOneColumn w nc = .ok P) : P.Perm (newMeta nc :: w) := by
  unfold insertOneColumn at h
  split at h
  · cases h
  · split at h
    · cases h
    · injection h with h
      subst h
      exact (List.perm_middle).trans (by rw [List.take_append_drop])

/-- A successful plan permutes to the existing list followed by the
metadata of all insertions. -/
lemma insert_new_columns_perm :
    ∀ (rs : List NewCol) (w P : List Col),
      insert_new_columns w rs = .ok P → P.Perm (w ++ rs.map newMeta) := by
  intro rs
  induction rs with
  | nil =>
    intro w P h
    injection h with h
    subst h
    simp
  | cons nc rest ih =>
    intro w P h
    simp only [insert_new_columns] at h
    cases hstep : insertOneColumn w nc with
    | error e => rw [hstep] at h; cases h
    | ok w2 =>
      rw [hstep] at h
      have h1 : w2.Perm (newMeta nc :: w) := insertOneColumn_perm hstep
      have h2 : P.Perm (w2 ++ rest.map newMeta) := ih w2 P h
      refine (h2.trans ((h1.append_right _).trans ?_))
      exact (@List.perm_middle _ (newMeta nc) w (rest.map newMeta)).symm

/-- A successful plan has length `len(existing) + len(insertions)`. -/
lemma insert_new_columns_length {w : List Col} {rs : List NewCol} {P : List Col}
    (h : insert_new_columns w rs = .ok P) : P.length = w.length + rs.length := by
  have := (insert_new_columns_perm rs w P h).length_eq
  simpa using this

/-- The planned names are a permutation of the existing names followed
by the inserted names. -/
lemma insert_new_columns_names_perm {w : List Col} {rs : List NewCol} {P : List Col}
    (h : insert_new_columns w rs = .ok P) :
    (P.map (fun c => c.name)).Perm
      (w.map (fun c => c.name) ++ rs.map (fun nc => nc.name)) := by
  have := (insert_new_columns_perm rs w P h).map (fun c => c.name)
  simpa [List.map_map, Function.comp, newMeta] using this

/-- Case-insensitive uniqueness of a projected name list implies exact
uniqueness. -/
lemma nodup_of_map_toLower {α : Type} (f : α → String) {l : List α}
    (h : (l.map (fun a => strLower (f a))).Nodup) : (l.map f).Nodup := by
  refine List.Nodup.of_map strLower ?_
  simpa [List.map_map, Function.comp] using h

/-- C1 counterexample: the claim quantifies over all insertion sequences
whose anchors resolve, with no requirement that inserted names avoid
existing names, yet `insert_new_columns` performs no duplicate check:
inserting a second column named "A" anchored after the existing "A"
succeeds and the result holds the name "A" twice, not exactly once. -/
theorem claim1_counterexample :
    insert_new_columns [colA] [ncDupA] = .ok [colA, newMeta ncDupA] ∧
      (([colA, newMeta ncDupA]).map (fun c => c.name)).count "A" = 2 := by
  constructor
  · rfl
  · rfl

/-- C1 (amended): for every existing list and insertion sequence whose
positions are well-formed and whose anchors all resolve against the
working list (exactly the cases where `insert_new_columns` returns
`.ok`), and whose names — existing and inserted together — are pairwise
distinct case-insensitively, the plan has length `len(L) + len(I)` and
contains every existing name exactly once and every inserted name
exactly once. -/
theorem claim1_plan_names_exactly_once (L : List Col) (I : List NewCol) (P : List Col)
    (hok : insert_new_columns L I = .ok P)
    (hnd : (L.map (fun c => strLower c.name) ++ I.map (fun nc => strLower nc.name)).Nodup) :
    P.length = L.length + I.length ∧
      (∀ c ∈ L, (P.map (fun c => c.name)).count c.name = 1) ∧
      (∀ nc ∈ I, (P.map (fun c => c.name)).count nc.name = 1) := by
  have hperm := insert_new_columns_names_perm hok
  obtain ⟨ndL, ndI, hdisj⟩ := List.nodup_append.mp hnd
  have ndLn : (L.map (fun c => c.name)).Nodup := nodup_of_map_toLower _ ndL
  have ndIn : (I.map (fun nc => nc.name)).Nodup := nodup_of_map_toLower _ ndI
  refine ⟨insert_new_columns_length hok, ?_, ?_⟩
  · intro c hc
    rw [hperm.count_eq, List.count_append]
    have h1 : (L.map (fun c => c.name)).count c.name = 1 :=
      List.count_eq_one_of_mem ndLn (List.mem_map_of_mem _ hc)
    have h2 : (I.map (fun nc => nc.name)).count c.name = 0 := by
      refine List.count_eq_zero_of_not_mem ?_
      intro hmem
      obtain ⟨nc, hncI, hEq⟩ := List.mem_map.mp hmem
      have hl1 : strLower c.name ∈ L.map (fun c => strLower c.name) :=
        List.mem_map_of_mem _ hc
      have hl2 : strLower c.name ∈ I.map (fun nc => strLower nc.name) :=
        List.mem_map.mpr ⟨nc, hncI, by rw [hEq]⟩
      exact hdisj hl1 hl2
    rw [h1, h2]
  · intro nc hnc
    rw [hperm.count_eq, List.count_append]
    have h1 : (L.map (fun c => c.name)).count nc.name = 0 := by
      refine List.count_eq_zero_of_not_mem ?_
      intro hmem
      obtain ⟨c, hcL, hEq⟩ := List.mem_map.mp hmem
      have hl1 : strLower nc.name ∈ L.map (fun c => strLower c.name) :=
        List.mem_map.mpr ⟨c, hcL, by rw [hEq]⟩
      have hl2 : strLower nc.name ∈ I.map (fun nc => strLower nc.name) :=
        List.mem_map_of_mem _ hnc
      exact hdisj hl1 hl2
    have h2 : (I.map (fun nc => nc.name)).count nc.name = 1 :=
      List.count_eq_one_of_mem ndIn (List.mem_map_of_mem _ hnc)
    rw [h1, h2]

/-- C3 counterexample: the spec's own duplicate test
`plan([{name:"A"}], [{name:"A", anchor:"A", position:AFTER}])` does not
fail — `insert_new_columns` has no duplicate-name check (its only error
paths are the position check and the anchor lookup), so the colliding
insertion succeeds and the plan holds two columns named "A". -/
theorem claim3_counterexample :
    insert_new_columns [colA] [ncDupA] = .ok [colA, newMeta ncDupA] := by
  rfl

/-- C3 (amended): `insert_new_columns` performs no duplicate-name
detection: any insertion with a well-formed position whose anchor
resolves succeeds — its name may collide case-insensitively with a name
already in the working list, and the new metadata is inserted anyway.
In particular the duplicate test above returns `[A, A]` unraised. -/
theorem claim3_no_duplicate_detection :
    (∀ (w : List Col) (nc : NewCol),
        (nc.position = "before" ∨ nc.position = "after") →
        (∃ i, findAnchorIdx w nc.anchor = some i) →
        ∃ P, insertOneColumn w nc = .ok P ∧ P.Perm (newMeta nc :: w)) ∧
    insert_new_columns [colA] [ncDupA] = .ok [colA, newMeta ncDupA] := by
  refine ⟨?_, by rfl⟩
  intro w nc hpos ⟨i, hidx⟩
  have hstep : insertOneColumn w nc =
      .ok (w.take (if nc.position == "after" then i + 1 else i) ++
        newMeta nc :: w.drop (if nc.position == "after" then i + 1 else i)) := by
    rcases hpos with hp | hp <;> simp [insertOneColumn, hp, hidx]
  exact ⟨_, hstep, insertOneColumn_perm hstep⟩

/-- C3 witness: the amended theorem applied to the colliding insertion
of a second "A" anchored at the existing "A". -/
theorem claim3_witness :
    ∃ P, insertOneColumn [colA] ncDupA = .ok P ∧ P.Perm (newMeta ncDupA :: [colA]) :=
  claim3_no_duplicate_detection.1 [colA] ncDupA (Or.inr rfl) ⟨0, by rfl⟩

/-- C4 counterexample: when the catalog query yields zero rows (the
table absent or invisible), `fetch_ordered_metadata` returns the empty
list normally — it raises nothing (its Lean model is a total function
into `List Col`), contradicting the claimed `NotFoundError`. -/
theorem claim4_counterexample : fetch_ordered_metadata [] = ([] : List Col) := by
  rfl

/-- C4 (amended): `fetch_ordered_metadata` produces exactly one column
descriptor per catalog row and in particular returns the empty sequence
— rather than failing — exactly when the metadata read yields zero
columns. -/
theorem claim4_empty_metadata_returns_empty :
    ∀ rows : List RawRow,
      (fetch_ordered_metadata rows).length = rows.length ∧
        (fetch_ordered_metadata rows = [] ↔ rows = []) := by
  intro rows
  constructor
  · simp [fetch_ordered_metadata]
  · simp [fetch_ordered_metadata]

/-- C5: the type formatter, with case-insensitive type-name matching:
character/binary families render `TYPE(MAX)` at the -1 sentinel and
otherwise `TYPE(length)` with the byte length halved for NCHAR and
NVARCHAR only; DECIMAL/NUMERIC render `TYPE(precision,scale)`;
DATETIME2/TIME/DATETIMEOFFSET render `TYPE(scale)`; all other names
render bare and uppercased — including the quoted examples. -/
theorem claim5_format_families :
    (∀ (tn : String) (ml : Int) (p s : Nat),
        strUpper tn ∈ charFamilies →
          formatType tn ml p s =
            if ml = -1 then strUpper tn ++ "(MAX)"
            else strUpper tn ++ "(" ++
              toString (if strUpper tn = "NCHAR" ∨ strUpper tn = "NVARCHAR"
                then pyIntHalf ml else ml) ++ ")") ∧
    (∀ (tn : String) (ml : Int) (p s : Nat),
        strUpper tn ∈ decimalFamilies →
          formatType tn ml p s = strUpper tn ++ "(" ++ toString p ++ "," ++ toString s ++ ")") ∧
    (∀ (tn : String) (ml : Int) (p s : Nat),
        strUpper tn ∈ temporalFamilies →
          formatType tn ml p s = strUpper tn ++ "(" ++ toString s ++ ")") ∧
    (∀ (tn : String) (ml : Int) (p s : Nat),
        strUpper tn ∉ charFamilies → strUpper tn ∉ decimalFamilies →
          strUpper tn ∉ temporalFamilies → formatType tn ml p s = strUpper tn) ∧
    formatType "NVARCHAR" 100 0 0 = "NVARCHAR(50)" ∧
    formatType "VARCHAR" 50 0 0 = "VARCHAR(50)" ∧
    formatType "VARCHAR" (-1) 0 0 = "VARCHAR(MAX)" ∧
    formatType "DECIMAL" 0 18 2 = "DECIMAL(18,2)" ∧
    formatType "INT" 4 10 0 = "INT" := by
  refine ⟨?_, ?_, ?_, ?_, by rfl, by rfl, by rfl, by rfl, by rfl⟩
  · intro tn ml p s hmem
    have hcases : strUpper tn = "CHAR" ∨ strUpper tn = "NCHAR" ∨ strUpper tn = "VARCHAR"
        ∨ strUpper tn = "NVARCHAR" ∨ strUpper tn = "BINARY" ∨ strUpper tn = "VARBINARY" := by
      simpa [charFamilies] using hmem
    by_cases hml : ml = -1
    · rcases hcases with h | h | h | h | h | h <;>
        simp [formatType, charFamilies, h, hml]
    · rcases hcases with h | h | h | h | h | h <;>
        simp [formatType, charFamilies, unicodeFamilies, h, hml]
  · intro tn ml p s hmem
    have hcases : strUpper tn = "DECIMAL" ∨ strUpper tn = "NUMERIC" := by
      simpa [decimalFamilies] using hmem
    rcases hcases with h | h <;>
      simp [formatType, charFamilies, decimalFamilies, h]
  · intro tn ml p s hmem
    have hcases : strUpper tn = "DATETIME2" ∨ strUpper tn = "TIME"
        ∨ strUpper tn = "DATETIMEOFFSET" := by
      simpa [temporalFamilies] using hmem
    rcases hcases with h | h | h <;>
      simp [formatType, charFamilies, decimalFamilies, temporalFamilies, h]
  · intro tn ml p s h1 h2 h3
    simp [formatType, h1, h2, h3]

/-- C5 witness: the character-family equation applied to a lowercase
raw type name with an even byte length. -/
theorem claim5_witness :
    formatType "nvarchar" 100 0 0 =
      if (100 : Int) = -1 then strUpper "nvarchar" ++ "(MAX)"
      else strUpper "nvarchar" ++ "(" ++
        toString (if strUpper "nvarchar" = "NCHAR" ∨ strUpper "nvarchar" = "NVARCHAR"
          then pyIntHalf 100 else 100) ++ ")" :=
  claim5_format_families.1 "nvarchar" 100 0 0 (by decide)

/-- The existing columns of the spec's end-to-end scenario:
`[Id(identity,int), Name(varchar(50))]`. -/
def scenarioCols : List Col := [colIdIdentity, colNameVarchar]

/-- The insertions of the spec's end-to-end scenario. -/
def scenarioInserts : List NewCol := [ncCreatedAt]

/-- Among specs with pairwise case-insensitively distinct names, the
lowered-name lookup of line 196 finds the member spec itself. -/
lemma find?_lower_self {I : List NewCol} {nc : NewCol}
    (hnd : (I.map (fun n => strLower n.name)).Nodup) (hmem : nc ∈ I) :
    I.find? (fun n => strLower n.name == strLower nc.name) = some nc := by
  induction I with
  | nil => cases hmem
  | cons m rest ih =>
    simp only [List.map_cons, List.nodup_cons] at hnd
    obtain ⟨hnotin, hnd2⟩ := hnd
    rcases List.mem_cons.mp hmem with h | h
    · subst h
      apply List.find?_cons_of_pos
      simp
    · have hne : ¬(strLower m.name == strLower nc.name) = true := by
        simp only [beq_iff_eq]
        intro hEq
        exact hnotin (hEq ▸ List.mem_map_of_mem _ h)
      have hstep : List.find? (fun n => strLower n.name == strLower nc.name) (m :: rest)
          = List.find? (fun n => strLower n.name == strLower nc.name) rest :=
        List.find?_cons_of_neg _ hne
      rw [hstep]
      exact ih hnd2 h

/-- C6: for a successful plan over case-insensitively distinct names,
each planned column's SELECT-list expression is the bracketed column
name when the column came from the existing list, and otherwise the
matching insertion's default expression aliased to the column name when
present, else the literal NULL aliased to the column name; on the
spec's end-to-end scenario the SELECT list is
`[Id], SYSUTCDATETIME() AS [CreatedAt], [Name]`. -/
theorem claim6_select_list :
    (∀ (L : List Col) (I : List NewCol) (P : List Col),
        insert_new_columns L I = .ok P →
        (L.map (fun c => strLower c.name) ++ I.map (fun nc => strLower nc.name)).Nodup →
        ∀ c ∈ P,
          (c ∈ L → selectExpr L I c = some ("[" ++ c.name ++ "]")) ∧
          (c ∉ L → ∃ nc ∈ I, c = newMeta nc ∧
              selectExpr L I c = some (match nc.default with
                | some d => d ++ " AS [" ++ c.name ++ "]"
                | none => "NULL AS [" ++ c.name ++ "]"))) ∧
    buildSelectExprs scenarioCols scenarioInserts
        [colIdIdentity, newMeta ncCreatedAt, colNameVarchar] =
      some ["[Id]", "SYSUTCDATETIME() AS [CreatedAt]", "[Name]"] := by
  refine ⟨?_, by rfl⟩
  intro L I P hok hnd c hcP
  obtain ⟨ndL, ndI, hdisj⟩ := List.nodup_append.mp hnd
  constructor
  · intro hcL
    have hmem2 : strLower c.name ∈ existingNames L := List.mem_map_of_mem _ hcL
    unfold selectExpr
    rw [if_pos hmem2]
  · intro hcNotL
    have hperm := insert_new_columns_perm I L P hok
    have hcIn : c ∈ L ++ I.map newMeta := hperm.mem_iff.mp hcP
    rcases List.mem_append.mp hcIn with h | h
    · exact absurd h hcNotL
    obtain ⟨nc, hncI, hEq⟩ := List.mem_map.mp h
    have hname : c.name = nc.name := by rw [← hEq]; rfl
    refine ⟨nc, hncI, hEq.symm, ?_⟩
    have hnotmem : strLower c.name ∉ existingNames L := by
      intro hmem
      obtain ⟨cL, hcL, hEq2⟩ := List.mem_map.mp hmem
      have hl1 : strLower nc.name ∈ L.map (fun c => strLower c.name) :=
        List.mem_map.mpr ⟨cL, hcL, by rw [hEq2, hname]⟩
      exact hdisj hl1 (List.mem_map_of_mem _ hncI)
    unfold selectExpr
    rw [if_neg hnotmem]
    have hfind : I.find? (fun n => strLower n.name == strLower c.name) = some nc := by
      rw [hname]
      exact find?_lower_self ndI hncI
    rw [hfind]
    cases hd : nc.default <;> simp [hd]

/-- C6 witness: the per-column characterization applied to the inserted
`CreatedAt` column of the end-to-end scenario. -/
theorem claim6_witness :
    ∃ nc ∈ scenarioInserts, newMeta ncCreatedAt = newMeta nc ∧
      selectExpr scenarioCols scenarioInserts (newMeta ncCreatedAt) =
        some (match nc.default with
          | some d => d ++ " AS [" ++ (newMeta ncCreatedAt).name ++ "]"
          | none => "NULL AS [" ++ (newMeta ncCreatedAt).name ++ "]") :=
  ((claim6_select_list.1 scenarioCols scenarioInserts
      [colIdIdentity, newMeta ncCreatedAt, colNameVarchar] (by rfl) (by decide)
      (newMeta ncCreatedAt) (by decide)).2 (by decide))

/-- Out-of-range default for indexed access in statements. -/
def dummyCol : Col :=
  { name := "", type := "", is_nullable := true, is_identity := false, default := none }

/-- The index `insert_new_columns` locates is the first (smallest)
index whose column name matches the anchor case-insensitively, and it
is in range. -/
lemma findAnchorIdx_spec :
    ∀ (w : List Col) (a : String) (i : Nat),
      findAnchorIdx w a = some i →
      i < w.length ∧ strLower (w.getD i dummyCol).name = strLower a ∧
        ∀ j, j < i → strLower (w.getD j dummyCol).name ≠ strLower a := by
  intro w
  induction w with
  | nil => intro a i h; cases h
  | cons c rest ih =>
    intro a i h
    simp only [findAnchorIdx] at h
    split at h
    · injection h with h
      subst h
      refine ⟨by simp, ?_, by omega⟩
      simpa using (by assumption : (strLower c.name == strLower a) = true)
    · cases hr : findAnchorIdx rest a with
      | none => rw [hr] at h; cases h
      | some j =>
        rw [hr] at h
        simp only [Option.map_some'] at h
        injection h with h
        subst h
        obtain ⟨h1, h2, h3⟩ := ih a j hr
        refine ⟨by simpa using Nat.succ_lt_succ h1, by simpa using h2, ?_⟩
        intro k hk
        cases k with
        | zero =>
          simpa using (by assumption : ¬(strLower c.name == strLower a) = true)
        | succ m =>
          have := h3 m (by omega)
          simpa using this

/-- C2: insertions are processed sequentially — processing the head
insertion replaces the working list by the list with the new metadata
inserted at the anchor index (BEFORE) or anchor index + 1 (AFTER)
before the remaining insertions are processed; the anchor index is the
first case-insensitive match in the current working list; and the plan
`[A after X, B after A]` over `[X, Y]` yields `[X, A, B, Y]`, placing B
immediately after A, immediately after X. -/
theorem claim2_sequential_anchor_resolution :
    (∀ (w : List Col) (nc : NewCol) (rest : List NewCol) (i : Nat),
        nc.position = "after" → findAnchorIdx w nc.anchor = some i →
        insert_new_columns w (nc :: rest) =
          insert_new_columns (w.take (i + 1) ++ newMeta nc :: w.drop (i + 1)) rest) ∧
    (∀ (w : List Col) (nc : NewCol) (rest : List NewCol) (i : Nat),
        nc.position = "before" → findAnchorIdx w nc.anchor = some i →
        insert_new_columns w (nc :: rest) =
          insert_new_columns (w.take i ++ newMeta nc :: w.drop i) rest) ∧
    (∀ (w : List Col) (a : String) (i : Nat),
        findAnchorIdx w a = some i →
        i < w.length ∧ strLower (w.getD i dummyCol).name = strLower a ∧
          ∀ j, j < i → strLower (w.getD j dummyCol).name ≠ strLower a) ∧
    insert_new_columns [colX, colY] [ncAfterX, ncAfterA] =
      .ok [colX, newMeta ncAfterX, newMeta ncAfterA, colY] := by
  refine ⟨?_, ?_, findAnchorIdx_spec, by rfl⟩
  · intro w nc rest i hpos hidx
    simp [insert_new_columns, insertOneColumn, hpos, hidx]
  · intro w nc rest i hpos hidx
    simp [insert_new_columns, insertOneColumn, hpos, hidx]

/-- C2 witness: the AFTER equation applied to the concrete working list
`[X, Y]` and the insertion of A after X at anchor index 0. -/
theorem claim2_witness :
    insert_new_columns [colX, colY] [ncAfterX, ncAfterA] =
      insert_new_columns
        ([colX, colY].take (0 + 1) ++ newMeta ncAfterX :: [colX, colY].drop (0 + 1))
        [ncAfterA] :=
  claim2_sequential_anchor_resolution.1 [colX, colY] ncAfterX [ncAfterA] 0 rfl (by rfl)

/-- C1 witness: the amended theorem applied to the concrete plan
inserting "A" after the existing column "X". -/
theorem claim1_witness :
    [colX, newMeta ncAfterX].length = [colX].length + [ncAfterX].length ∧
      (∀ c ∈ [colX], (([colX, newMeta ncAfterX]).map (fun c => c.name)).count c.name = 1) ∧
      (∀ nc ∈ [ncAfterX], (([colX, newMeta ncAfterX]).map (fun c => c.name)).count nc.name = 1) :=
  claim1_plan_names_exactly_once [colX] [ncAfterX] [colX, newMeta ncAfterX] rfl (by decide)

/-- C7: the copy batch contains exactly
`[SET IDENTITY_INSERT ... ON;, INSERT, SET IDENTITY_INSERT ... OFF;]`
when some planned column has `is_identity` true, and exactly the bare
INSERT when no planned column does. -/
theorem claim7_identity_insert_bracketing :
    ∀ (tmp ins : String) (cols : List Col),
      ((∃ c ∈ cols, c.is_identity = true) →
        insertBatchParts tmp ins cols =
          ["SET IDENTITY_INSERT " ++ tmp ++ " ON;", ins,
           "SET IDENTITY_INSERT " ++ tmp ++ " OFF;"]) ∧
      ((∀ c ∈ cols, c.is_identity = false) →
        insertBatchParts tmp ins cols = [ins]) := by
  intro tmp ins cols
  constructor
  · intro hex
    have hany : cols.any (fun c => c.is_identity) = true := by
      rw [List.any_eq_true]
      obtain ⟨c, hc, hid⟩ := hex
      exact ⟨c, hc, hid⟩
    simp [insertBatchParts, hany]
  · intro hall
    have hany : cols.any (fun c => c.is_identity) = false := by
      rw [List.any_eq_false]
      intro c hc
      simp [hall c hc]
    simp [insertBatchParts, hany]

/-- C7 witness: both directions at concrete planned lists — the
scenario list whose `Id` is an identity column, and a list with no
identity column. -/
theorem claim7_witness :
    insertBatchParts "[dbo].[T_TmpReorder]" "INSERT" [colIdIdentity, colNameVarchar] =
        ["SET IDENTITY_INSERT [dbo].[T_TmpReorder] ON;", "INSERT",
         "SET IDENTITY_INSERT [dbo].[T_TmpReorder] OFF;"] ∧
      insertBatchParts "[dbo].[T_TmpReorder]" "INSERT" [colNameVarchar] = ["INSERT"] :=
  ⟨(claim7_identity_insert_bracketing "[dbo].[T_TmpReorder]" "INSERT"
      [colIdIdentity, colNameVarchar]).1 ⟨colIdIdentity, by decide, rfl⟩,
   (claim7_identity_insert_bracketing "[dbo].[T_TmpReorder]" "INSERT"
      [colNameVarchar]).2 (by decide)⟩

/-- A descriptor whose default expression is set but empty. -/
def colEmptyDefault : Col :=
  { name := "A", type := "INT", is_nullable := true, is_identity := false, default := some "" }

/-- C8 counterexample: `build_col_def` guards the DEFAULT clause with
Python truthiness, not with "is set": for a descriptor whose
`defaultExpression` is set to the empty string the rendered definition
carries no DEFAULT clause. -/
theorem claim8_counterexample :
    colEmptyDefault.default = some "" ∧ build_col_def colEmptyDefault = "[A] INT NULL" := by
  constructor
  · rfl
  · rfl

/-- C8 (amended): `build_col_def` renders
`[name] declaredType[ IDENTITY(1,1)][ DEFAULT expr] NULL|NOT NULL`,
where the identity clause is present iff `is_identity`, the trailing
keyword follows `is_nullable`, and the DEFAULT clause is present iff
the default expression is set to a non-empty string (Python
truthiness), not merely set. -/
theorem claim8_col_def_shape :
    ∀ (col : Col),
      build_col_def col =
        "[" ++ col.name ++ "] " ++ col.type ++
          (if col.is_identity then " IDENTITY(1,1)" else "") ++
          (match col.default with
           | some d => if d.isEmpty then "" else " DEFAULT " ++ d
           | none => "") ++
          " " ++ (if col.is_nullable then "NULL" else "NOT NULL") := by
  intro col
  cases hd : col.default with
  | none => simp [build_col_def, pyTruthyStr, hd]
  | some d =>
    cases he : d.isEmpty <;>
      simp [build_col_def, pyTruthyStr, hd, he]

/-- C9: a planner `ValueError` is raised before the CREATE, INSERT,
DROP and sp_rename statements are generated or executed: on any
planning error `rebuild` executes the empty statement list. -/
theorem claim9_no_statement_on_plan_error :
    ∀ (schema table : String) (rows : List RawRow) (I : List NewCol) (sfx : String)
      (e : PlanError),
      insert_new_columns (fetch_ordered_metadata rows) I = .error e →
      rebuild schema table rows I sfx = ([], .error (.planErr e)) := by
  intro schema table rows I sfx e h
  simp only [rebuild, h]

/-- C9 witness: rebuilding against an empty catalog snapshot fails at
anchor resolution and executes nothing. -/
theorem claim9_witness :
    rebuild "dbo" "T" [] scenarioInserts "_TmpReorder" =
      ([], .error (.planErr (.anchorNotFound "Id"))) :=
  claim9_no_statement_on_plan_error "dbo" "T" [] scenarioInserts "_TmpReorder"
    (.anchorNotFound "Id") (by rfl)

/-- Mutating one heap cell leaves every other address unchanged. -/
lemma heapGet_heapSet_ne (h : ListHeap) (a b : Nat) (v : List Col) (hne : a ≠ b) :
    heapGet (heapSet h b v) a = heapGet h a := by
  unfold heapGet heapSet
  rw [List.getD_eq_getElem?_getD, List.getD_eq_getElem?_getD,
    List.getElem?_set_ne (Ne.symm hne)]

/-- The insertion loop only ever writes the `ordered` cell. -/
lemma insertLoopHeap_frame :
    ∀ (rs : List NewCol) (hh : ListHeap) (ordAddr a : Nat),
      a ≠ ordAddr →
      heapGet ((insertLoopHeap ordAddr hh rs).1) a = heapGet hh a := by
  intro rs
  induction rs with
  | nil => intro hh o a hne; rfl
  | cons nc rest ih =>
    intro hh o a hne
    simp only [insertLoopHeap]
    cases hstep : insertOneColumn (heapGet hh o) nc with
    | error e => rfl
    | ok v =>
      rw [ih (heapSet hh o v) o a hne, heapGet_heapSet_ne hh a o v hne]

/-- The heap model computes the same plans as the pure model: on a
successful plan of the list held at the `ordered` cell, the loop ends
with that cell holding the planned list. -/
lemma insertLoopHeap_ok_agrees :
    ∀ (rs : List NewCol) (hh : ListHeap) (o : Nat), o < List.length hh →
      ∀ P, insert_new_columns (heapGet hh o) rs = .ok P →
        (insertLoopHeap o hh rs).2 = .ok o ∧ heapGet ((insertLoopHeap o hh rs).1) o = P := by
  intro rs
  induction rs with
  | nil =>
    intro hh o ho P h
    injection h with h
    exact ⟨rfl, h⟩
  | cons nc rest ih =>
    intro hh o ho P h
    simp only [insert_new_columns] at h
    cases hstep : insertOneColumn (heapGet hh o) nc with
    | error e => rw [hstep] at h; cases h
    | ok v =>
      rw [hstep] at h
      simp only [insertLoopHeap, hstep]
      have hget : heapGet (heapSet hh o v) o = v := by
        unfold heapGet heapSet
        rw [List.getD_eq_getElem?_getD, List.getElem?_set_self ho]
        rfl
      have hlen : o < List.length (heapSet hh o v) := by
        unfold heapSet
        rw [List.length_set]
        exact ho
      exact ih (heapSet hh o v) o hlen P (by rw [hget]; exact h)

/-- The fresh cell of `insertNewColumnsHeap` initially holds the copy
of the caller's list. -/
lemma heapGet_alloc (h : ListHeap) (v : List Col) :
    heapGet (h ++ [v]) (List.length h) = v := by
  unfold heapGet
  rw [List.getD_eq_getElem?_getD, List.getElem?_concat_length]
  rfl

/-- C10: `insert_new_columns` never mutates the caller's
`existing_cols` list object: line 110 copies it into a fresh cell and
every `list.insert` of the loop targets that fresh cell only, so after
the call — whether it returns or raises — the caller's address still
holds the same descriptors in the same order. -/
theorem claim10_existing_cols_unmodified :
    ∀ (h : ListHeap) (a : Nat) (I : List NewCol),
      a < List.length h →
      heapGet ((insertNewColumnsHeap h a I).1) a = heapGet h a := by
  intro h a I ha
  unfold insertNewColumnsHeap
  rw [insertLoopHeap_frame I (h ++ [heapGet h a]) (List.length h) a (Nat.ne_of_lt ha)]
  unfold heapGet
  rw [List.getD_eq_getElem?_getD, List.getD_eq_getElem?_getD, List.getElem?_append_left ha]

/-- On success the heap model returns the address of the fresh cell,
which holds exactly the pure model's planned list. -/
lemma insertNewColumnsHeap_agrees (h : ListHeap) (a : Nat) (I : List NewCol) (P : List Col)
    (hok : insert_new_columns (heapGet h a) I = .ok P) :
    (insertNewColumnsHeap h a I).2 = .ok (List.length h) ∧
      heapGet ((insertNewColumnsHeap h a I).1) (List.length h) = P := by
  unfold insertNewColumnsHeap
  refine insertLoopHeap_ok_agrees I (h ++ [heapGet h a]) (List.length h) (by simp) P ?_
  rw [heapGet_alloc]
  exact hok

/-- C10 witness: the frame theorem applied to a one-object heap holding
the caller's two-column list at address 0. -/
theorem claim10_witness :
    heapGet ((insertNewColumnsHeap [[colX, colY]] 0 [ncAfterX]).1) 0 =
      heapGet [[colX, colY]] 0 :=
  claim10_existing_cols_unmodified [[colX, colY]] 0 [ncAfterX] (by decide)
